import Mathlib

/-!
# Verification of the toroidal Game-of-Life engine (`src/main.rs`)

Shallow embedding of the state-transition core of the simulator:
the cell data model, the `wrap` closure, neighbor counting, the
transition rule of `calculate_state`, `seed`, and `render`.

Conventions of the embedding:
* A cell is the Rust pair `(u8, u8)`; component `.1` is the alive flag
  (`.0` in Rust) and `.2` the brightness (`.1` in Rust).
* The grid `CellArray = [[(u8, u8); WIDTH]; HEIGHT]` is embedded as a total
  function `Nat → Nat → Cell` (row index `y` first, matching `cells[y][x]`),
  together with explicit `width`/`height` parameters as in the Rust functions.
* `u8` values are `Nat`s; where the Rust code adds `u8`s, the sum is taken
  `% 256` (wrapping semantics).
* The `f32` arithmetic of the brightness decay is embedded exactly over `ℚ`:
  IEEE-754 binary32 round-to-nearest-even, valid on the whole range of
  values the program produces (products `b * 0.95f32` for `b ≤ 255`).
-/

abbrev Cell := Nat × Nat

abbrev Grid := Nat → Nat → Cell

/-- `const NEIGHBOR_LIMIT: u8 = 3;` -/
def NEIGHBOR_LIMIT : Nat := 3

/-- `const WIDTH: usize = 640;` -/
def WIDTH : Nat := 640

/-- `const HEIGHT: usize = 480;` -/
def HEIGHT : Nat := 480

/-- The `wrap` closure of `calculate_state`:
`|index, amount, limit| if (index as i16 + amount) < 0 { limit as i16 + amount }
 else if index as i16 + amount >= limit as i16 { 0i16 + amount }
 else { index as i16 + amount } as usize`.
The `i16` arithmetic never overflows for the arguments the program uses
(`index < limit ≤ 640`, `amount ∈ {-1, 1}`), and the selected branch value is
nonnegative there, so the final `as usize` cast is `Int.toNat`. -/
def wrap (index : Nat) (amount : Int) (limit : Nat) : Nat :=
  (if (index : Int) + amount < 0 then (limit : Int) + amount
   else if (index : Int) + amount ≥ (limit : Int) then 0 + amount
   else (index : Int) + amount).toNat

/-- Wrapping `u8` addition (release-mode semantics of `+` on `u8`). -/
def wadd (a b : Nat) : Nat := (a + b) % 256

/-- The `alive_neighbors` computation of `calculate_state`: the eight reads
from `cells_original` at the wrapped coordinates, summed left to right as
`u8`s. -/
def aliveNeighbors (orig : Grid) (w h x y : Nat) : Nat :=
  let x_wrapped_left := wrap x (-1) w
  let x_wrapped_right := wrap x 1 w
  let y_wrapped_top := wrap y (-1) h
  let y_wrapped_bottom := wrap y 1 h
  let top_left := (orig y_wrapped_top x_wrapped_left).1
  let top_mid := (orig y_wrapped_top x).1
  let top_right := (orig y_wrapped_top x_wrapped_right).1
  let mid_left := (orig y x_wrapped_left).1
  let mid_right := (orig y x_wrapped_right).1
  let bottom_left := (orig y_wrapped_bottom x_wrapped_left).1
  let bottom_mid := (orig y_wrapped_bottom x).1
  let bottom_right := (orig y_wrapped_bottom x_wrapped_right).1
  wadd (wadd (wadd (wadd (wadd (wadd (wadd top_left top_mid) top_right)
    mid_left) mid_right) bottom_left) bottom_mid) bottom_right

/-- The exact mathematical count of the eight neighbor flags, without the
`u8` wrap: used to state that the `u8` sum never overflows. -/
def exactNeighborCount (orig : Grid) (w h x y : Nat) : Nat :=
  (orig (wrap y (-1) h) (wrap x (-1) w)).1 + (orig (wrap y (-1) h) x).1 +
  (orig (wrap y (-1) h) (wrap x 1 w)).1 + (orig y (wrap x (-1) w)).1 +
  (orig y (wrap x 1 w)).1 + (orig (wrap y 1 h) (wrap x (-1) w)).1 +
  (orig (wrap y 1 h) x).1 + (orig (wrap y 1 h) (wrap x 1 w)).1

/-! ## Exact binary32 model of the brightness decay

The Rust code computes `(b as f32 * 0.95) as u8`.  We model binary32
round-to-nearest-even exactly over `ℚ`.  The only inputs the program ever
rounds are the literal `0.95` and products `b * 0.95f32` with `b : u8`, all
of which lie in `{0} ∪ [2^(-2), 2^8)`, so the exponent search below covers
every case that occurs (all such values are normal numbers). -/

/-- Binary exponent `e` with `2^e ≤ q < 2^(e+1)`, by bounded search over the
range `[2^(-2), 2^9)` that covers every value the program rounds.
(Comparison bounds are written with `mkRat` to keep the definition
kernel-evaluable.) -/
def f32exp (q : ℚ) : Int :=
  if q < mkRat 1 2 then -2 else if q < mkRat 1 1 then -1
  else if q < mkRat 2 1 then 0 else if q < mkRat 4 1 then 1
  else if q < mkRat 8 1 then 2 else if q < mkRat 16 1 then 3
  else if q < mkRat 32 1 then 4 else if q < mkRat 64 1 then 5
  else if q < mkRat 128 1 then 6 else if q < mkRat 256 1 then 7 else 8

/-- Round to the nearest integer, ties to even.  `r2` is twice the
fractional part of `q`, scaled by the (positive) denominator:
`r2 = 2 (q - ⌊q⌋) q.den`, so `q - ⌊q⌋ < 1/2 ↔ r2 < q.den`. -/
def rne (q : ℚ) : Int :=
  let f := ⌊q⌋
  let r2 : Int := 2 * (q.num - f * q.den)
  if r2 < q.den then f
  else if (q.den : Int) < r2 then f + 1
  else if f % 2 = 0 then f else f + 1

/-- `q * 2^k`, computed on the numerator so that it kernel-evaluates. -/
def qscale (q : ℚ) (k : Nat) : ℚ := mkRat (q.num * 2 ^ k) q.den

/-- Round a nonnegative rational to the nearest binary32 value
(round-to-nearest-even): round the significand scaled to 24 bits,
`q * 2^(23-e)`, to the nearest integer, then divide back by `2^(23-e)`. -/
def f32round (q : ℚ) : ℚ :=
  if q.num = 0 then 0
  else
    let k : Nat := (23 - f32exp q).toNat
    mkRat (rne (qscale q k)) (2 ^ k)

/-- The `f32` literal `0.95` (rounded at compile time to the nearest
binary32 value, `15938355 / 2^24`). -/
def decayFactor : ℚ := f32round (mkRat 95 100)

/-- The decay computation `(b as f32 * 0.95) as u8`: the `u8` value `b` is
exact in `f32`, the product `b * decayFactor` (formed on the numerator, so
that it kernel-evaluates) is rounded to the nearest binary32 value, and
`as u8` truncates toward zero and saturates to `[0, 255]`. -/
def decay (b : Nat) : Nat :=
  min (⌊f32round (mkRat (b * decayFactor.num) decayFactor.den)⌋.toNat) 255

/-! ## The transition rule -/

/-- The pure per-cell transition: the value `calculate_state` stores at
`(x, y)`, as a function of the snapshot `cells_original` alone (its own
cell read from the snapshot).  Branch for branch the body of the
`for`-loops of `calculate_state`. -/
def stepCell (orig : Grid) (w h x y : Nat) : Cell :=
  let alive_neighbors := aliveNeighbors orig w h x y
  let c := orig y x
  if c.1 = 1 then
    if alive_neighbors < NEIGHBOR_LIMIT - 1 then
      -- underpopulation
      (0, decay c.2)
    else if alive_neighbors < NEIGHBOR_LIMIT + 1 then
      -- balanced/living: alive flag untouched, brightness reset
      (c.1, 255)
    else if alive_neighbors > NEIGHBOR_LIMIT then
      -- overpopulation
      (0, decay c.2)
    else
      -- arithmetically unreachable gap of the if/else-if chain: no write
      c
  else if alive_neighbors = NEIGHBOR_LIMIT then
    -- reproduction
    (1, 255)
  else
    (c.1, decay c.2)

/-- Whether the loop body sets `has_changes` at `(x, y)` (snapshot view). -/
def cellChanged (orig : Grid) (w h x y : Nat) : Bool :=
  let alive_neighbors := aliveNeighbors orig w h x y
  let c := orig y x
  if c.1 = 1 then
    if alive_neighbors < NEIGHBOR_LIMIT - 1 then true
    else if alive_neighbors < NEIGHBOR_LIMIT + 1 then false
    else if alive_neighbors > NEIGHBOR_LIMIT then true
    else false
  else if alive_neighbors = NEIGHBOR_LIMIT then true
  else false

/-- In-place store `cells[y][x] = v` on the function representation. -/
def updateGrid (g : Grid) (x y : Nat) (v : Cell) : Grid :=
  fun y' x' => if y' = y ∧ x' = x then v else g y' x'

/-- One iteration of the inner loop body of `calculate_state`, operating on
the in-progress state `(cells, has_changes)`: the neighbor reads use the
snapshot `orig` (`cells_original`), while the cell's own alive test
`cells[y][x].0 == 1` reads the mutable, in-progress grid — exactly as the
Rust code does. -/
def stepOne (orig : Grid) (w h : Nat) (s : Grid × Bool) (p : Nat × Nat) :
    Grid × Bool :=
  let x := p.1
  let y := p.2
  let alive_neighbors := aliveNeighbors orig w h x y
  let cur := s.1 y x
  if cur.1 = 1 then
    if alive_neighbors < NEIGHBOR_LIMIT - 1 then
      (updateGrid s.1 x y (0, decay (orig y x).2), true)
    else if alive_neighbors < NEIGHBOR_LIMIT + 1 then
      (updateGrid s.1 x y (cur.1, 255), s.2)
    else if alive_neighbors > NEIGHBOR_LIMIT then
      (updateGrid s.1 x y (0, decay (orig y x).2), true)
    else s
  else if alive_neighbors = NEIGHBOR_LIMIT then
    (updateGrid s.1 x y (1, 255), true)
  else
    (updateGrid s.1 x y ((orig y x).1, decay (orig y x).2), s.2)

/-- The row-major traversal order of the two nested `for`-loops
(`for y in 0..height { for x in 0..width { ... } }`). -/
def positions (w h : Nat) : List (Nat × Nat) :=
  (List.range h).flatMap fun y => (List.range w).map fun x => (x, y)

/-- `calculate_state`: the snapshot `cells_original` is a clone of the input,
`has_changes` starts `false`, and the nested loops update the grid in place.
Returns the final grid together with the `has_changes` flag. -/
def calculate_state (cells : Grid) (w h : Nat) : Grid × Bool :=
  (positions w h).foldl (stepOne cells w h) (cells, false)

/-- `tick` just delegates to `calculate_state` (the grid part). -/
def tick (cells : Grid) (w h : Nat) : Grid :=
  (calculate_state cells w h).1

/-- The diagnostic `println!("\nStable at current generation {}", generation)`
guarded by `!has_changes`, modelled as the generation number reported
(`none` when nothing is printed). -/
def stabilityReport (cells : Grid) (w h generation : Nat) : Option Nat :=
  if (calculate_state cells w h).2 then none else some generation

/-- `seed`: for every in-range coordinate, one random `f32` in `[0,1)` is
drawn and the cell is set to `(1, 0xff)` when the draw is `> 0.5` and to
`(0, 0)` otherwise.  The draws are passed in explicitly as a family of
rationals `draws y x` (one per coordinate, outer loop over `y`). -/
def seed (cells : Grid) (w h : Nat) (draws : Nat → Nat → ℚ) : Grid :=
  fun y x =>
    if y < h ∧ x < w then
      if draws y x > mkRat 1 2 then (1, 0xff) else (0, 0)
    else cells y x

/-- `render`: `frame_buffer.chunks_exact_mut(4)` walks the `⌊len/4⌋` complete
4-byte chunks; chunk `i` is overwritten with `[cells[i / width][i % width].1; 4]`;
a trailing remainder of fewer than 4 bytes is left untouched.  An index out
of bounds (`i / width ≥ height`, or the division/remainder by `width = 0`)
panics, modelled as `none`. -/
def render (cells : Grid) (w h : Nat) (frame_buffer : List Nat) :
    Option (List Nat) :=
  let chunks := frame_buffer.length / 4
  if (List.range chunks).all fun i => decide (i / w < h) && decide (i % w < w) then
    some (((List.range chunks).flatMap fun i =>
      List.replicate 4 ((cells (i / w) (i % w)).2)) ++
      frame_buffer.drop (4 * chunks))
  else none

/-! ## The loop refines the pure snapshot transition -/

lemma updateGrid_same (g : Grid) (x y : Nat) : updateGrid g x y (g y x) = g := by
  funext y' x'
  by_cases hc : y' = y ∧ x' = x
  · obtain ⟨h1, h2⟩ := hc
    simp [updateGrid, h1, h2]
  · simp [updateGrid, hc]

lemma positions_nodup (w h : Nat) : (positions w h).Nodup := by
  unfold positions
  rw [List.nodup_flatMap]
  refine ⟨fun y _ =>
    List.Nodup.map (fun a b hab => congrArg Prod.fst hab) (List.nodup_range w), ?_⟩
  refine List.Pairwise.imp ?_ (List.nodup_range h)
  intro a b hab p hpa hpb
  obtain ⟨_, _, rfl⟩ := List.mem_map.mp hpa
  obtain ⟨_, _, he⟩ := List.mem_map.mp hpb
  exact hab ((congrArg Prod.snd he).symm)

lemma mem_positions {w h x y : Nat} : (x, y) ∈ positions w h ↔ x < w ∧ y < h := by
  simp only [positions, List.mem_flatMap, List.mem_range, List.mem_map, Prod.mk.injEq]
  constructor
  · rintro ⟨y', hy', x', hx', rfl, rfl⟩
    exact ⟨hx', hy'⟩
  · rintro ⟨hx, hy⟩
    exact ⟨y, hy, x, hx, rfl, rfl⟩

/-- One loop iteration, evaluated at a cell whose own entry is still the
snapshot value, stores exactly the pure per-cell result and or-accumulates
the change flag. -/
lemma stepOne_eq (orig : Grid) (w h : Nat) (g : Grid) (b : Bool) (x y : Nat)
    (hg : g y x = orig y x) :
    stepOne orig w h (g, b) (x, y) =
      (updateGrid g x y (stepCell orig w h x y), b || cellChanged orig w h x y) := by
  simp only [stepOne, stepCell, cellChanged, hg, NEIGHBOR_LIMIT]
  split_ifs with h1 h2 h3 h4 h5 <;>
    simp only [Bool.or_true, Bool.or_false] <;>
    first
      | rfl
      | (rw [updateGrid_same] at * <;> omega)
      | omega

/-- Invariant of the nested `for`-loops: over any duplicate-free worklist of
positions whose entries are still at their snapshot values, the fold stores
the pure per-cell result at each listed position and leaves the rest of the
grid alone; the final flag is the or of the per-cell change flags. -/
lemma foldl_stepOne (orig : Grid) (w h : Nat) (L : List (Nat × Nat)) :
    ∀ (g : Grid) (b : Bool), L.Nodup →
      (∀ p ∈ L, g p.2 p.1 = orig p.2 p.1) →
      (∀ y x, (L.foldl (stepOne orig w h) (g, b)).1 y x =
          if (x, y) ∈ L then stepCell orig w h x y else g y x) ∧
      (L.foldl (stepOne orig w h) (g, b)).2 =
        (b || L.any fun p => cellChanged orig w h p.1 p.2) := by
  induction L with
  | nil => intro g b _ _; simp
  | cons p L ih =>
    intro g b hnd hg
    obtain ⟨x, y⟩ := p
    obtain ⟨hpL, hnd'⟩ := List.nodup_cons.mp hnd
    rw [List.foldl_cons, stepOne_eq orig w h g b x y (hg _ (List.mem_cons_self _ _))]
    have hg' : ∀ q ∈ L,
        updateGrid g x y (stepCell orig w h x y) q.2 q.1 = orig q.2 q.1 := by
      intro q hq
      have hqp : ¬(q.2 = y ∧ q.1 = x) := by
        rintro ⟨h2, h1⟩
        exact hpL (by rwa [show q = (x, y) from Prod.ext h1 h2] at hq)
      simp only [updateGrid, if_neg hqp]
      exact hg q (List.mem_cons_of_mem _ hq)
    obtain ⟨ih1, ih2⟩ := ih (updateGrid g x y (stepCell orig w h x y))
      (b || cellChanged orig w h x y) hnd' hg'
    refine ⟨fun y' x' => ?_, ?_⟩
    · rw [ih1 y' x']
      by_cases hmem : (x', y') ∈ L
      · simp [hmem, List.mem_cons]
      · by_cases hpq : (x', y') = (x, y)
        · obtain ⟨e1, e2⟩ := Prod.mk.injEq .. |>.mp hpq
          subst e1; subst e2
          simp [hmem, updateGrid, List.mem_cons]
        · have : ¬(y' = y ∧ x' = x) := by
            rintro ⟨h2, h1⟩
            exact hpq (Prod.ext h1 h2)
          simp [hmem, updateGrid, this, List.mem_cons, hpq]
    · rw [ih2, List.any_cons, Bool.or_assoc]

/-- The grid `calculate_state` returns: the pure per-cell transition on the
in-range cells, the unchanged input elsewhere. -/
lemma calculate_state_fst (orig : Grid) (w h y x : Nat) :
    (calculate_state orig w h).1 y x =
      if x < w ∧ y < h then stepCell orig w h x y else orig y x := by
  obtain ⟨h1, _⟩ := foldl_stepOne orig w h (positions w h) orig false
    (positions_nodup w h) (fun _ _ => rfl)
  rw [calculate_state, h1 y x]
  by_cases hxy : x < w ∧ y < h
  · simp [mem_positions, hxy]
  · simp [mem_positions, hxy]

/-- The `has_changes` flag `calculate_state` returns. -/
lemma calculate_state_snd (orig : Grid) (w h : Nat) :
    (calculate_state orig w h).2 =
      (positions w h).any fun p => cellChanged orig w h p.1 p.2 := by
  obtain ⟨_, h2⟩ := foldl_stepOne orig w h (positions w h) orig false
    (positions_nodup w h) (fun _ _ => rfl)
  rw [calculate_state, h2, Bool.false_or]

/-- The loop body sets `has_changes` at a cell exactly when the cell's alive
flag changes there. -/
lemma cellChanged_eq_false_iff (orig : Grid) (w h x y : Nat) :
    cellChanged orig w h x y = false ↔
      (stepCell orig w h x y).1 = (orig y x).1 := by
  simp only [cellChanged, stepCell, NEIGHBOR_LIMIT]
  split_ifs with h1 h2 h3 h4 h5 <;> simp_all <;> omega

example : wrap 639 1 640 = 1 := by decide
example : wrap 0 (-1) 640 = 639 := by decide
example : decay 20 = 19 := by decide
example : decay 255 = 242 := by decide
example : decayFactor = mkRat 15938355 (2 ^ 24) := by decide

/-! ## The claims -/

/-- C1: the spec demands modular wraparound (overflow wraps to `0`, so the
neighbor of `(W-1, H-1)` at offset `(1, 1)` is `(0, 0)`), and the negative
side of `wrap` does behave that way (`wrap 0 (-1) 640 = 639`), but on
overflow `wrap` returns `0 + amount = 1`, not `0`: the right neighbor of
column `639` is computed as column `1`, and the bottom-right neighbor of
cell `(639, 479)` as cell `(1, 1)` — so a lone live cell at `(0, 0)` is not
counted by `(639, 479)`, while a lone live cell at `(1, 1)` is. -/
theorem wrap_overflow_wraps_to_one :
    wrap 639 1 640 = 1 ∧ wrap 479 1 480 = 1 ∧
    (639 + 1) % 640 = 0 ∧ (479 + 1) % 480 = 0 ∧
    wrap 0 (-1) 640 = 639 ∧ wrap 0 (-1) 480 = 479 ∧
    aliveNeighbors (fun y x => if y = 0 ∧ x = 0 then (1, 255) else (0, 0))
      640 480 639 479 = 0 ∧
    aliveNeighbors (fun y x => if y = 1 ∧ x = 1 then (1, 255) else (0, 0))
      640 480 639 479 = 1 := by
  decide

/-- C2: rule partition completeness with `NEIGHBOR_LIMIT = 3`.  For every
cell and every step: an alive cell with `0` or `1` computed alive neighbors
becomes dead, with `2` or `3` stays alive, with `4`–`8` becomes dead; a
dead cell with exactly `3` alive neighbors becomes alive and with any other
count stays dead; and the three alive branches partition all counts `0`–`8`
with no gap and no overlap. -/
theorem rule_partition_complete (orig : Grid) (w h x y : Nat) :
    ((orig y x).1 = 1 →
      (aliveNeighbors orig w h x y ≤ 1 → (stepCell orig w h x y).1 = 0) ∧
      (aliveNeighbors orig w h x y = 2 ∨ aliveNeighbors orig w h x y = 3 →
        (stepCell orig w h x y).1 = 1) ∧
      (4 ≤ aliveNeighbors orig w h x y → (stepCell orig w h x y).1 = 0)) ∧
    ((orig y x).1 ≠ 1 →
      (aliveNeighbors orig w h x y = 3 → (stepCell orig w h x y).1 = 1) ∧
      (aliveNeighbors orig w h x y ≠ 3 →
        (stepCell orig w h x y).1 = (orig y x).1 ∧
        (stepCell orig w h x y).1 ≠ 1)) ∧
    (NEIGHBOR_LIMIT = 3 ∧ ∀ m, m ≤ 8 →
      (m ≤ 1 ∧ ¬(m = 2 ∨ m = 3) ∧ ¬4 ≤ m) ∨
      (¬m ≤ 1 ∧ (m = 2 ∨ m = 3) ∧ ¬4 ≤ m) ∨
      (¬m ≤ 1 ∧ ¬(m = 2 ∨ m = 3) ∧ 4 ≤ m)) := by
  simp only [stepCell, NEIGHBOR_LIMIT]
  split_ifs with h1 h2 h3 h4 h5 <;>
    refine ⟨fun ha => ⟨fun hn => ?_, fun hn => ?_, fun hn => ?_⟩,
      fun ha => ⟨fun hn => ?_, fun hn => ⟨?_, ?_⟩⟩, by trivial,
      fun m hm => by rcases Nat.lt_or_ge m 2 with h | h <;>
        rcases Nat.lt_or_ge m 4 with h' | h' <;> omega⟩ <;>
    first
      | rfl
      | omega
      | (exfalso; omega)
      | (rcases hn with h | h <;> omega)

/-- C5 counterexample: a drawn value of `3/4` exceeds `p = 1/2`, yet `seed`
starts that cell alive with brightness `255`, not dead with brightness `0`
as the claim states. -/
theorem seed_threshold_direction_cex :
    mkRat 1 2 < mkRat 3 4 ∧
    seed (fun _ _ => (0, 0)) 1 1 (fun _ _ => mkRat 3 4) 0 0 = (1, 255) ∧
    seed (fun _ _ => (0, 0)) 1 1 (fun _ _ => mkRat 3 4) 0 0 ≠ (0, 0) := by
  decide

/-- C5 (amended): `seed` assigns every in-range coordinate independently
from its one drawn value; a draw exceeding `p = 0.5` starts the cell alive
(`alive = 1`, `brightness = 255`), any other draw starts it dead
(`alive = 0`, `brightness = 0`) — the opposite orientation to the claim. -/
theorem seed_assigns_cells (cells : Grid) (w h : Nat) (draws : Nat → Nat → ℚ)
    (x y : Nat) (hy : y < h) (hx : x < w) :
    (mkRat 1 2 < draws y x → seed cells w h draws y x = (1, 255)) ∧
    (¬mkRat 1 2 < draws y x → seed cells w h draws y x = (0, 0)) := by
  constructor <;> intro hd <;> simp [seed, hy, hx, hd]

/-- C5 witness: the amended claim evaluated on a one-cell grid, with a draw
of `3/4` on one side and `1/4` on the other. -/
theorem seed_assigns_cells_witness :
    seed (fun _ _ => (0, 0)) 1 1 (fun _ _ => mkRat 3 4) 0 0 = (1, 255) ∧
    seed (fun _ _ => (0, 0)) 1 1 (fun _ _ => mkRat 1 4) 0 0 = (0, 0) :=
  ⟨(seed_assigns_cells (fun _ _ => (0, 0)) 1 1 (fun _ _ => mkRat 3 4) 0 0
      (by decide) (by decide)).1 (by decide),
   (seed_assigns_cells (fun _ _ => (0, 0)) 1 1 (fun _ _ => mkRat 1 4) 0 0
      (by decide) (by decide)).2 (by decide)⟩

/-- C8: with a buffer of exactly `width * height * 4` bytes, `render` writes,
for each pixel index `i` (row-major, top row first, `x = i % width`,
`y = i / width`), the brightness of cell `(x, y)` into all four RGBA bytes
of pixel `i`. -/
theorem render_maps_brightness (cells : Grid) (w h : Nat)
    (frame_buffer : List Nat) (hlen : frame_buffer.length = w * h * 4) :
    render cells w h frame_buffer =
      some ((List.range (w * h)).flatMap fun i =>
        List.replicate 4 ((cells (i / w) (i % w)).2)) := by
  rcases Nat.eq_zero_or_pos w with hw | hw
  · subst hw
    have hnil : frame_buffer = [] := List.eq_nil_of_length_eq_zero (by omega)
    subst hnil
    simp [render]
  · have hch : frame_buffer.length / 4 = w * h := by omega
    have hall : ((List.range (w * h)).all fun i =>
        decide (i / w < h) && decide (i % w < w)) = true := by
      rw [List.all_eq_true]
      intro i hi
      rw [List.mem_range] at hi
      have h1 : i / w < h := (Nat.div_lt_iff_lt_mul hw).mpr (by rw [Nat.mul_comm h w]; omega)
      have h2 : i % w < w := Nat.mod_lt _ hw
      simp [h1, h2]
    have hdrop : frame_buffer.drop (4 * (w * h)) = [] :=
      List.drop_eq_nil_of_le (by omega)
    simp only [render, hch, hall, if_true, hdrop, List.append_nil]

/-- C8 witness: the 2×2 grid with brightness values `[10, 20, 30, 40]`
(row-major) renders into the 16-byte RGBA buffer of the claim. -/
theorem render_maps_brightness_witness :
    render (fun y x => (0, 10 + 20 * y + 10 * x)) 2 2 (List.replicate 16 0) =
      some [10, 10, 10, 10, 20, 20, 20, 20, 30, 30, 30, 30,
        40, 40, 40, 40] :=
  (render_maps_brightness (fun y x => (0, 10 + 20 * y + 10 * x)) 2 2
      (List.replicate 16 0) (by decide)).trans (by decide)

/-- C9 counterexample: a 4-byte buffer for a 2×2 grid (which needs 16 bytes)
is not rejected: `render` succeeds and silently renders only the first
pixel. -/
theorem render_short_buffer_truncates :
    render (fun y x => (0, 10 + 20 * y + 10 * x)) 2 2 [0, 0, 0, 0] =
      some [10, 10, 10, 10] ∧ (4 : Nat) ≠ 2 * 2 * 4 := by
  decide

/-- C9 (amended): `render` performs no buffer-size check.  A buffer with at
most `width * height` complete 4-byte chunks — in particular any too-short
buffer — is processed without any error, silently rendering only its
`⌊len/4⌋` leading pixels (and silently ignoring 1–3 trailing bytes); the
operation fails (an index panic) only when the buffer holds more than
`width * height` complete chunks. -/
theorem render_buffer_size_behavior (cells : Grid) (w h : Nat)
    (frame_buffer : List Nat) (hw : 0 < w) :
    (frame_buffer.length / 4 ≤ w * h →
      ∃ out, render cells w h frame_buffer = some out) ∧
    (w * h < frame_buffer.length / 4 →
      render cells w h frame_buffer = none) := by
  constructor
  · intro hle
    have hall : ((List.range (frame_buffer.length / 4)).all fun i =>
        decide (i / w < h) && decide (i % w < w)) = true := by
      rw [List.all_eq_true]
      intro i hi
      rw [List.mem_range] at hi
      have h1 : i / w < h := (Nat.div_lt_iff_lt_mul hw).mpr (by rw [Nat.mul_comm h w]; omega)
      have h2 : i % w < w := Nat.mod_lt _ hw
      simp [h1, h2]
    exact ⟨_, by simp only [render, hall, if_true]; rfl⟩
  · intro hgt
    have hnall : ¬(((List.range (frame_buffer.length / 4)).all fun i =>
        decide (i / w < h) && decide (i % w < w)) = true) := by
      intro hall
      have := List.all_eq_true.mp hall (w * h) (List.mem_range.mpr hgt)
      have hdiv : w * h / w = h := Nat.mul_div_cancel_left h hw
      simp [hdiv] at this
    simp only [render, if_neg hnall]

/-- C9 witness: a 20-byte buffer (5 chunks) for a 2×2 grid makes `render`
fail, while the 4-byte buffer is accepted. -/
theorem render_buffer_size_behavior_witness :
    render (fun y x => (0, 10 + 20 * y + 10 * x)) 2 2 (List.replicate 20 0) =
        none ∧
      ∃ out, render (fun y x => (0, 10 + 20 * y + 10 * x)) 2 2 [0, 0, 0, 0] =
        some out :=
  ⟨(render_buffer_size_behavior (fun y x => (0, 10 + 20 * y + 10 * x)) 2 2
      (List.replicate 20 0) (by decide)).2 (by decide),
   (render_buffer_size_behavior (fun y x => (0, 10 + 20 * y + 10 * x)) 2 2
      [0, 0, 0, 0] (by decide)).1 (by decide)⟩

/-! ## Decay arithmetic -/

set_option maxRecDepth 4000 in
set_option maxHeartbeats 1000000 in
/-- On the whole `u8` range the exact binary32 computation
`(b as f32 * 0.95) as u8` coincides with `⌊19 b / 20⌋ = ⌊b * 0.95⌋`: the
f32 rounding of the literal and of the product never crosses an integer
boundary for `b ≤ 255`. -/
lemma decay_eq_floor : ∀ b : Nat, b < 256 → decay b = 19 * b / 20 := by
  decide

lemma decay_le_255 (b : Nat) : decay b ≤ 255 :=
  Nat.min_le_right _ _

lemma decay_lt (b : Nat) (h1 : 1 ≤ b) (h2 : b ≤ 255) : decay b < b := by
  rw [decay_eq_floor b (by omega)]
  omega

lemma decay_reaches_zero : ∀ b, b ≤ 255 → ∃ n, decay^[n] b = 0 := by
  intro b
  induction b using Nat.strong_induction_on with
  | _ b ih =>
    intro hb
    rcases Nat.eq_zero_or_pos b with rfl | hpos
    · exact ⟨0, rfl⟩
    · have hlt := decay_lt b hpos hb
      obtain ⟨n, hn⟩ := ih (decay b) hlt (le_trans (Nat.le_of_lt hlt) hb)
      exact ⟨n + 1, by rwa [Function.iterate_succ_apply]⟩

/-- C4: a cell that dies or stays dead in a step gets brightness
`(old as f32 * 0.95) as u8`, which for every `u8` brightness equals
`⌊19 * old / 20⌋ = ⌊old * 0.95⌋` exactly, is at most the old value, never
exceeds 255 (and, the embedding being over `Nat`, is never negative), and
iterating the decay reaches 0. -/
theorem dead_cell_brightness_decay (orig : Grid) (w h x y : Nat)
    (hb : (orig y x).2 ≤ 255) (hdead : (stepCell orig w h x y).1 ≠ 1) :
    (stepCell orig w h x y).2 = decay (orig y x).2 ∧
    decay (orig y x).2 = 19 * (orig y x).2 / 20 ∧
    decay (orig y x).2 ≤ (orig y x).2 ∧
    decay (orig y x).2 ≤ 255 ∧
    ∃ n, decay^[n] (orig y x).2 = 0 := by
  refine ⟨?_, decay_eq_floor _ (by omega), ?_, decay_le_255 _,
    decay_reaches_zero _ hb⟩
  · revert hdead
    simp only [stepCell, NEIGHBOR_LIMIT]
    split_ifs with h1 h2 h3 h4 h5 <;> intro hdead <;>
      first | rfl | simp_all | (exfalso; omega)
  · rw [decay_eq_floor _ (by omega)]
    omega

/-- C4 witness: in the all-alive 3×3 grid the center cell has eight alive
neighbors, dies of overpopulation, and its brightness decays from 255
to 242. -/
theorem dead_cell_brightness_decay_witness :
    (stepCell (fun _ _ => (1, (255 : Nat))) 3 3 1 1).2 = decay 255 ∧
    decay 255 = 19 * 255 / 20 ∧ decay 255 ≤ 255 ∧ decay 255 ≤ 255 ∧
    ∃ n, decay^[n] (255 : Nat) = 0 :=
  dead_cell_brightness_decay (fun _ _ => (1, 255)) 3 3 1 1
    (by decide) (by decide)

/-- C2 witness: in the all-alive 3×3 grid cell `(2, 2)` has eight computed
alive neighbors and becomes dead; in the 3×3 grid whose top row is alive,
the dead center cell has exactly three alive neighbors and becomes alive. -/
theorem rule_partition_complete_witness :
    (stepCell (fun _ _ => (1, (255 : Nat))) 3 3 2 2).1 = 0 ∧
    (stepCell (fun y _ => if y = 0 then (1, 255) else (0, 0)) 3 3 1 1).1 = 1 :=
  ⟨((rule_partition_complete (fun _ _ => (1, 255)) 3 3 2 2).1
      (by decide)).2.2 (by decide),
   ((rule_partition_complete (fun y _ => if y = 0 then (1, 255) else (0, 0))
      3 3 1 1).2.1 (by decide)).1 (by decide)⟩

/-- C3: the in-place update loop of `calculate_state` is equivalent to the
pure per-cell function `stepCell` of the immutable snapshot (every in-range
output cell equals `stepCell` of the unmodified input grid), and `stepCell`
depends only on the snapshot values of the cell and its eight neighbor
reads — never on cells mutated earlier in the same pass.  Determinism
(calling the step twice on the same grid gives identical outputs) is
immediate, the transition being a function of the input grid alone. -/
theorem calculate_state_snapshot_pure (orig orig' : Grid) (w h x y : Nat)
    (hx : x < w) (hy : y < h)
    (h9 : orig' y x = orig y x ∧
      orig' (wrap y (-1) h) (wrap x (-1) w) =
        orig (wrap y (-1) h) (wrap x (-1) w) ∧
      orig' (wrap y (-1) h) x = orig (wrap y (-1) h) x ∧
      orig' (wrap y (-1) h) (wrap x 1 w) = orig (wrap y (-1) h) (wrap x 1 w) ∧
      orig' y (wrap x (-1) w) = orig y (wrap x (-1) w) ∧
      orig' y (wrap x 1 w) = orig y (wrap x 1 w) ∧
      orig' (wrap y 1 h) (wrap x (-1) w) = orig (wrap y 1 h) (wrap x (-1) w) ∧
      orig' (wrap y 1 h) x = orig (wrap y 1 h) x ∧
      orig' (wrap y 1 h) (wrap x 1 w) = orig (wrap y 1 h) (wrap x 1 w)) :
    (calculate_state orig w h).1 y x = stepCell orig w h x y ∧
    stepCell orig' w h x y = stepCell orig w h x y := by
  obtain ⟨e0, e1, e2, e3, e4, e5, e6, e7, e8⟩ := h9
  constructor
  · rw [calculate_state_fst]
    simp [hx, hy]
  · have hn : aliveNeighbors orig' w h x y = aliveNeighbors orig w h x y := by
      simp only [aliveNeighbors, e1, e2, e3, e4, e5, e6, e7, e8]
    simp only [stepCell, hn, e0]

/-- C3 witness: the claim instantiated on the all-alive 3×3 grid at the
center cell. -/
theorem calculate_state_snapshot_pure_witness :
    (calculate_state (fun _ _ => (1, (255 : Nat))) 3 3).1 1 1 =
        stepCell (fun _ _ => (1, 255)) 3 3 1 1 ∧
      stepCell (fun _ _ => (1, (255 : Nat))) 3 3 1 1 =
        stepCell (fun _ _ => (1, 255)) 3 3 1 1 :=
  calculate_state_snapshot_pure (fun _ _ => (1, 255)) (fun _ _ => (1, 255))
    3 3 1 1 (by decide) (by decide)
    ⟨rfl, rfl, rfl, rfl, rfl, rfl, rfl, rfl, rfl⟩

/-- C6: a cell that is alive after seeding or after a step has brightness
exactly 255: the balanced and reproduction branches pin it to `0xff`, and
the decay is applied only in branches whose resulting cell is not alive. -/
theorem alive_implies_brightness_255 (cells orig : Grid) (w h x y : Nat)
    (draws : Nat → Nat → ℚ) :
    (y < h → x < w → (seed cells w h draws y x).1 = 1 →
      (seed cells w h draws y x).2 = 255) ∧
    ((stepCell orig w h x y).1 = 1 → (stepCell orig w h x y).2 = 255) ∧
    (y < h → x < w → ((calculate_state orig w h).1 y x).1 = 1 →
      ((calculate_state orig w h).1 y x).2 = 255) := by
  have hstep : (stepCell orig w h x y).1 = 1 →
      (stepCell orig w h x y).2 = 255 := by
    simp only [stepCell, NEIGHBOR_LIMIT]
    split_ifs with h1 h2 h3 h4 h5 <;> intro ha <;> simp_all <;> omega
  refine ⟨?_, hstep, ?_⟩
  · intro hy hx
    simp only [seed, if_pos (And.intro hy hx)]
    split_ifs <;> intro ha <;> simp_all
  · intro hy hx
    rw [calculate_state_fst]
    simp only [if_pos (And.intro hx hy)]
    exact hstep

/-- C6 witness: seeding a cell alive gives brightness 255, and the
reproduced center cell of the top-row grid comes out with brightness
255. -/
theorem alive_implies_brightness_255_witness :
    (seed (fun _ _ => (0, 0)) 2 2 (fun _ _ => mkRat 7 8) 0 1).2 = 255 ∧
    (stepCell (fun y _ => if y = 0 then (1, (255 : Nat)) else (0, 0))
      3 3 1 1).2 = 255 :=
  ⟨(alive_implies_brightness_255 (fun _ _ => (0, 0))
      (fun _ _ => (0, 0)) 2 2 1 0 (fun _ _ => mkRat 7 8)).1
      (by decide) (by decide) (by decide),
   (alive_implies_brightness_255 (fun _ _ => (0, 0))
      (fun y _ => if y = 0 then (1, 255) else (0, 0)) 3 3 1 1
      (fun _ _ => mkRat 7 8)).2.1 (by decide)⟩

/-- C7: the `has_changes` flag is `false` exactly when no in-range cell's
alive flag differs between the input grid and the output grid, and the
stability message is emitted, carrying the current generation number,
exactly in that case. -/
theorem has_changes_iff_alive_diff (cells : Grid) (w h generation : Nat) :
    ((calculate_state cells w h).2 = false ↔
      ∀ x, x < w → ∀ y, y < h →
        ((calculate_state cells w h).1 y x).1 = (cells y x).1) ∧
    (stabilityReport cells w h generation = some generation ↔
      (calculate_state cells w h).2 = false) := by
  constructor
  · rw [calculate_state_snd, List.any_eq_false]
    constructor
    · intro H x hx y hy
      rw [calculate_state_fst]
      simp only [if_pos (And.intro hx hy)]
      have hc := H (x, y) (mem_positions.mpr ⟨hx, hy⟩)
      exact (cellChanged_eq_false_iff cells w h x y).mp (by simpa using hc)
    · intro H p hp
      obtain ⟨x, y⟩ := p
      obtain ⟨hx, hy⟩ := mem_positions.mp hp
      have h2 := H x hx y hy
      rw [calculate_state_fst] at h2
      simp only [if_pos (And.intro hx hy)] at h2
      simpa using (cellChanged_eq_false_iff cells w h x y).mpr h2
  · unfold stabilityReport
    cases hflag : (calculate_state cells w h).2 <;> simp [hflag]

/-- C7 witness: the all-dead 1×1 grid is stable, so `has_changes` is false
and the stability report carries the generation number. -/
theorem has_changes_iff_alive_diff_witness :
    stabilityReport (fun _ _ => (0, 0)) 1 1 7 = some 7 :=
  (has_changes_iff_alive_diff (fun _ _ => (0, 0)) 1 1 7).2.mpr (by decide)

/-- C10: seeding writes alive flags 0 or 1 only; `calculate_state`
preserves the 0/1 encoding of every cell; and under that encoding the
left-to-right wrapping `u8` sum of the eight neighbor flags never wraps:
it equals the exact neighbor count, which is at most 8. -/
theorem alive_flag_zero_or_one (cells orig : Grid) (w h x y : Nat)
    (draws : Nat → Nat → ℚ)
    (hwf : ∀ y' x', (orig y' x').1 = 0 ∨ (orig y' x').1 = 1) :
    (y < h → x < w →
      (seed cells w h draws y x).1 = 0 ∨ (seed cells w h draws y x).1 = 1) ∧
    (((calculate_state orig w h).1 y x).1 = 0 ∨
      ((calculate_state orig w h).1 y x).1 = 1) ∧
    aliveNeighbors orig w h x y = exactNeighborCount orig w h x y ∧
    exactNeighborCount orig w h x y ≤ 8 := by
  have b1 : (orig (wrap y (-1) h) (wrap x (-1) w)).1 ≤ 1 := by
    rcases hwf (wrap y (-1) h) (wrap x (-1) w) with hc | hc <;> omega
  have b2 : (orig (wrap y (-1) h) x).1 ≤ 1 := by
    rcases hwf (wrap y (-1) h) x with hc | hc <;> omega
  have b3 : (orig (wrap y (-1) h) (wrap x 1 w)).1 ≤ 1 := by
    rcases hwf (wrap y (-1) h) (wrap x 1 w) with hc | hc <;> omega
  have b4 : (orig y (wrap x (-1) w)).1 ≤ 1 := by
    rcases hwf y (wrap x (-1) w) with hc | hc <;> omega
  have b5 : (orig y (wrap x 1 w)).1 ≤ 1 := by
    rcases hwf y (wrap x 1 w) with hc | hc <;> omega
  have b6 : (orig (wrap y 1 h) (wrap x (-1) w)).1 ≤ 1 := by
    rcases hwf (wrap y 1 h) (wrap x (-1) w) with hc | hc <;> omega
  have b7 : (orig (wrap y 1 h) x).1 ≤ 1 := by
    rcases hwf (wrap y 1 h) x with hc | hc <;> omega
  have b8 : (orig (wrap y 1 h) (wrap x 1 w)).1 ≤ 1 := by
    rcases hwf (wrap y 1 h) (wrap x 1 w) with hc | hc <;> omega
  refine ⟨?_, ?_, ?_, ?_⟩
  · intro hy hx
    simp only [seed, if_pos (And.intro hy hx)]
    split_ifs <;> simp
  · rw [calculate_state_fst]
    by_cases hxy : x < w ∧ y < h
    · simp only [if_pos hxy, stepCell, NEIGHBOR_LIMIT]
      split_ifs <;> rcases hwf y x with hc | hc <;> simp [hc]
    · simp only [if_neg hxy]
      exact hwf y x
  · simp only [aliveNeighbors, exactNeighborCount, wadd]
    omega
  · simp only [exactNeighborCount]
    omega

/-- C10 witness: the claim instantiated on the all-alive 3×3 grid at the
center, whose exact neighbor count is 8 and whose wrapped sum agrees. -/
theorem alive_flag_zero_or_one_witness :
    ((seed (fun _ _ => (0, 0)) 3 3 (fun _ _ => mkRat 1 8) 2 2).1 = 0 ∨
      (seed (fun _ _ => (0, 0)) 3 3 (fun _ _ => mkRat 1 8) 2 2).1 = 1) ∧
    (((calculate_state (fun _ _ => (1, (255 : Nat))) 3 3).1 2 2).1 = 0 ∨
      ((calculate_state (fun _ _ => (1, (255 : Nat))) 3 3).1 2 2).1 = 1) ∧
    aliveNeighbors (fun _ _ => (1, (255 : Nat))) 3 3 2 2 =
      exactNeighborCount (fun _ _ => (1, (255 : Nat))) 3 3 2 2 ∧
    exactNeighborCount (fun _ _ => (1, (255 : Nat))) 3 3 2 2 ≤ 8 := by
  have base := alive_flag_zero_or_one (fun _ _ => (0, 0))
    (fun _ _ => (1, 255)) 3 3 2 2 (fun _ _ => mkRat 1 8)
    (fun _ _ => Or.inr rfl)
  exact ⟨base.1 (by decide) (by decide), base.2.1, base.2.2.1, base.2.2.2⟩
